import Mathlib

/-!
Shallow embedding of the validation and identifier-encoding core of
efsn (`common/types.go`).

Conventions of the embedding:
* Go `*big.Int` fields are modelled as `Option Int` (`none` is the nil
  pointer); `math/big` integers are arbitrary precision, so `Int` is exact.
* Go `uint64` fields are modelled as `Nat`; where the code adds two
  `uint64` values the embedding reduces the sum modulo `2 ^ 64`.
* Go `string` values are modelled as `String`; Go `len` on a string counts
  the bytes of its UTF-8 encoding, which is `String.utf8ByteSize`.
* Byte arrays (`Hash`, `Address`) are modelled as `List Nat` of byte
  values.
-/

set_option linter.unusedVariables false

/-- Go `len(s)` for a string `s`: the byte length of its UTF-8 encoding. -/
def strLen (s : String) : Nat := s.utf8ByteSize

/-- A Go `*big.Int` field: `none` models the nil pointer. -/
abbrev BigInt := Option Int

/-- The result of `x.Cmp(y)` of `math/big`: -1, 0 or +1. -/
def bigCmp (x y : Int) : Int := if x < y then -1 else if x = y then 0 else 1

/-- GenAssetParam (`common/types.go`). `Decimals` is a `uint8`. -/
structure GenAssetParam where
  Name : String
  Symbol : String
  Decimals : Nat
  Total : BigInt
  CanChange : Bool
  Description : String

/-- SendAssetParam. `AssetID` is a `Hash`, `To` an `Address` (byte lists). -/
structure SendAssetParam where
  AssetID : List Nat
  To : List Nat
  Value : BigInt

/-- AssetValueChangeParam. -/
structure AssetValueChangeParam where
  AssetID : List Nat
  To : List Nat
  Value : BigInt
  IsInc : Bool

/-- AssetValueChangeExParam. -/
structure AssetValueChangeExParam where
  AssetID : List Nat
  To : List Nat
  Value : BigInt
  IsInc : Bool
  TransacData : String

/-- TimeLockParam. The Go field `Type` (a `TimeLockType`) is rendered as
`LockType` because `Type` is reserved in Lean; it plays no role in `Check`. -/
structure TimeLockParam where
  LockType : Nat
  AssetID : List Nat
  To : List Nat
  StartTime : Nat
  EndTime : Nat
  Value : BigInt

/-- BuyTicketParam: `Start` and `End` are `uint64` timestamps. -/
structure BuyTicketParam where
  Start : Nat
  End : Nat

/-- MakeSwapParam. -/
structure MakeSwapParam where
  FromAssetID : List Nat
  FromStartTime : Nat
  FromEndTime : Nat
  MinFromAmount : BigInt
  ToAssetID : List Nat
  ToStartTime : Nat
  ToEndTime : Nat
  MinToAmount : BigInt
  SwapSize : BigInt
  Targes : List (List Nat)
  Time : BigInt
  Description : String

/-- TakeSwapParam. -/
structure TakeSwapParam where
  SwapID : List Nat
  Size : BigInt

/-- Swap: the stored record a take/recall operation refers to. -/
structure Swap where
  ID : List Nat
  Owner : List Nat
  FromAssetID : List Nat
  FromStartTime : Nat
  FromEndTime : Nat
  MinFromAmount : BigInt
  ToAssetID : List Nat
  ToStartTime : Nat
  ToEndTime : Nat
  MinToAmount : BigInt
  SwapSize : BigInt
  Targes : List (List Nat)
  Time : BigInt
  Description : String

/-- Embeds `GenAssetParam.Check` (`common/types.go:831`).  `Big0` (defined next to
this file in the Go package) is `big.NewInt(0)`.  Note the first guard
compares `Total` with zero using `< 0`, not `<= 0`. -/
def GenAssetParam.Check (p : GenAssetParam) (blockNumber : Int) :
    Except String Unit :=
  if strLen p.Name = 0 ∨ strLen p.Symbol = 0 ∨ p.Total = none ∨
      bigCmp (p.Total.getD 0) 0 < 0 then
    .error "GenAssetFunc name, symbol and total must be set"
  else if 18 < p.Decimals then
    .error "GenAssetFunc decimals must be between 0 and 18"
  else if 1024 < strLen p.Description then
    .error "GenAsset description length is greater than 1024 chars"
  else if 128 < strLen p.Name then
    .error "GenAsset name length is greater than 128 chars"
  else if 64 < strLen p.Symbol then
    .error "GenAsset symbol length is greater than 64 chars"
  else
    .ok ()

/-- The all-zero `Address{}` literal, as a byte list. -/
def zeroAddress : List Nat := List.replicate 20 0

/-- Embeds `SendAssetParam.Check` (`common/types.go:851`). -/
def SendAssetParam.Check (p : SendAssetParam) (blockNumber : Int) :
    Except String Unit :=
  if p.Value = none ∨ bigCmp (p.Value.getD 0) 0 ≤ 0 then
    .error "Value must be set and greater than 0"
  else if p.To = zeroAddress then
    .error "receiver address must be set and not zero address"
  else
    .ok ()

/-- Embeds `TimeLockParam.Check` (`common/types.go:861`). -/
def TimeLockParam.Check (p : TimeLockParam) (blockNumber : Int)
    (timestamp : Nat) : Except String Unit :=
  if p.Value = none ∨ bigCmp (p.Value.getD 0) 0 ≤ 0 then
    .error "Value must be set and greater than 0"
  else if p.EndTime < p.StartTime then
    .error "StartTime must be less than or equal to EndTime"
  else if p.EndTime < timestamp then
    .error "EndTime must be greater than latest block time"
  else
    .ok ()

/-- Embeds `AssetValueChangeParam.Check` (`common/types.go:895`). -/
def AssetValueChangeParam.Check (p : AssetValueChangeParam)
    (blockNumber : Int) : Except String Unit :=
  if p.Value = none ∨ bigCmp (p.Value.getD 0) 0 ≤ 0 then
    .error "Value must be set and greater than 0"
  else
    .ok ()

/-- Embeds `AssetValueChangeExParam.Check` (`common/types.go:902`). -/
def AssetValueChangeExParam.Check (p : AssetValueChangeExParam)
    (blockNumber : Int) : Except String Unit :=
  if p.Value = none ∨ bigCmp (p.Value.getD 0) 0 ≤ 0 then
    .error "Value must be set and greater than 0"
  else if 256 < strLen p.TransacData then
    .error "TransacData must not be greater than 256"
  else
    .ok ()

/-- Addition of two `uint64` values: wraps modulo `2 ^ 64`. -/
def addU64 (a b : Nat) : Nat := (a + b) % 2 ^ 64

/-- Go conversion `uint64(x)` of an `int64`-valued integer `x`:
two's-complement reinterpretation, i.e. reduction modulo `2 ^ 64`. -/
def toU64 (x : Int) : Nat := (x % (2 ^ 64 : Int)).toNat

/-- Embeds `BuyTicketParam.Check` (`common/types.go:876`).  `adjust` is the Go
`int64` slack parameter; `7*24*3600+adjust` is `int64` arithmetic whose
result is converted to `uint64`, which is reduction of the exact sum
modulo `2 ^ 64`. -/
def BuyTicketParam.Check (p : BuyTicketParam) (blockNumber : Int)
    (timestamp : Nat) (adjust : Int) : Except String Unit :=
  if p.End ≤ p.Start ∨ p.End < addU64 p.Start (30 * 24 * 3600) then
    .error "BuyTicket end must be lower than start + 1 month"
  else if timestamp ≠ 0 then
    if addU64 timestamp (3 * 3600) < p.Start then
      .error "BuyTicket start must be lower than latest block time + 3 hour"
    else if p.End < addU64 timestamp (toU64 (7 * 24 * 3600 + adjust)) then
      .error "BuyTicket end must be greater than latest block time + 1 week"
    else
      .ok ()
  else
    .ok ()

/-- Embeds `MakeSwapParam.Check` (`common/types.go:912`). -/
def MakeSwapParam.Check (p : MakeSwapParam) (blockNumber : Int)
    (timestamp : Nat) : Except String Unit :=
  if p.MinFromAmount = none ∨ bigCmp (p.MinFromAmount.getD 0) 0 ≤ 0 ∨
      p.MinToAmount = none ∨ bigCmp (p.MinToAmount.getD 0) 0 ≤ 0 ∨
      p.SwapSize = none ∨ bigCmp (p.SwapSize.getD 0) 0 ≤ 0 then
    .error "MinFromAmount,MinToAmount and SwapSize must be ge 1"
  else if 1024 < strLen p.Description then
    .error "MakeSwap description length is greater than 1024 chars"
  else if bigCmp (p.MinFromAmount.getD 0 * p.SwapSize.getD 0) 0 ≤ 0 then
    .error "size * MinFromAmount too large"
  else if p.FromEndTime < p.FromStartTime then
    .error "MakeSwap FromStartTime > FromEndTime"
  else if p.ToEndTime < p.ToStartTime then
    .error "MakeSwap ToStartTime > ToEndTime"
  else if p.FromEndTime ≤ timestamp then
    .error "MakeSwap FromEndTime <= latest blockTime"
  else if p.ToEndTime ≤ timestamp then
    .error "MakeSwap ToEndTime <= latest blockTime"
  else
    .ok ()

/-- Embeds `TakeSwapParam.Check` (`common/types.go:958`). -/
def TakeSwapParam.Check (p : TakeSwapParam) (blockNumber : Int) (swap : Swap)
    (timestamp : Nat) : Except String Unit :=
  if p.Size = none ∨ bigCmp (p.Size.getD 0) 0 ≤ 0 ∨
      swap.SwapSize = none ∨ 0 < bigCmp (p.Size.getD 0) (swap.SwapSize.getD 0) then
    .error "Size must be ge 1 and le Swapsize"
  else if swap.MinFromAmount = none ∨ bigCmp (swap.MinFromAmount.getD 0) 0 ≤ 0 then
    .error "MinFromAmount less than  equal to zero"
  else if swap.MinToAmount = none ∨ bigCmp (swap.MinToAmount.getD 0) 0 ≤ 0 then
    .error "MinToAmount less than  equal to zero"
  else if bigCmp (swap.MinFromAmount.getD 0 * p.Size.getD 0) 0 ≤ 0 then
    .error "fromTotal less than  equal to zero"
  else if bigCmp (swap.MinToAmount.getD 0 * p.Size.getD 0) 0 ≤ 0 then
    .error "toTotal less than  equal to zero"
  else if swap.FromEndTime ≤ timestamp then
    .error "swap expired: FromEndTime <= latest blockTime"
  else if swap.ToEndTime ≤ timestamp then
    .error "swap expired: ToEndTime <= latest blockTime"
  else
    .ok ()

/-- Embeds `Hash.SetBytes` (`common/types.go:110`): crops `b` from the left when it
is longer than 32 bytes, then copies it into the tail of a zeroed 32-byte
array, i.e. left-pads with zero bytes. -/
def Hash.SetBytes (b : List Nat) : List Nat :=
  let c := if 32 < b.length then b.drop (b.length - 32) else b
  List.replicate (32 - c.length) 0 ++ c

/-- Embeds `Address.SetBytes` (`common/types.go:232`): same as `Hash.SetBytes` with
a 20-byte destination. -/
def Address.SetBytes (b : List Nat) : List Nat :=
  let c := if 20 < b.length then b.drop (b.length - 20) else b
  List.replicate (20 - c.length) 0 ++ c

/-- The lowercase hex digit (as an ASCII code) of a nibble, as used by Go
`encoding/hex`: digits are codes 48-57, letters a-f are codes 97-102. -/
def hexDigitCode (n : Nat) : Nat := if n < 10 then 48 + n else 87 + n

/-- Go `hex.EncodeToString` on a byte list, producing the list of ASCII
codes of the lowercase hex string (high nibble of each byte first). -/
def encodeToStringCodes : List Nat → List Nat
  | [] => []
  | b :: bs => hexDigitCode (b >>> 4) :: hexDigitCode (b &&& 15) :: encodeToStringCodes bs

/-- The body of the `for` loop of `Address.Hex` (`common/types.go:205`):
`hashByte := hash[i/2]`, shifted right by 4 when `i` is even and masked
with `0xf` when odd; the character is decreased by 32 (uppercased) when it
is `> '9'` (code 57) and the nibble is `> 7`. -/
def checksumByte (hsh : List Nat) (i : Nat) (c : Nat) : Nat :=
  let hashByte := if i % 2 = 0 then hsh.getD (i / 2) 0 >>> 4
                  else hsh.getD (i / 2) 0 &&& 15
  if 57 < c ∧ 7 < hashByte then c - 32 else c

/-- The `for` loop of `Address.Hex`, carrying the running index `i`. -/
def checksumLoop (hsh : List Nat) (i : Nat) : List Nat → List Nat
  | [] => []
  | c :: cs => checksumByte hsh i c :: checksumLoop hsh (i + 1) cs

/-- Embeds `Address.Hex` (`common/types.go:198`), as the list of ASCII codes after
the `0x` prefix.  The cryptographic hash (`sha3.NewKeccak256`, which lives
outside this file's sources) is supplied as the parameter `keccak`,
following the spec's description of it as an external hash of the ASCII
bytes of the lowercase hex string; indexing `hash[i/2]` is total in Go for
a 32-byte digest and is rendered with `getD`. -/
def addressHexCodes (keccak : List Nat → List Nat) (a : List Nat) : List Nat :=
  let unchecksummed := encodeToStringCodes a
  checksumLoop (keccak unchecksummed) 0 unchecksummed

/-- Renders `Address.Hex` as a string: the `0x` prefix followed by the mixed-case
characters. -/
def addressHex (keccak : List Nat → List Nat) (a : List Nat) : String :=
  "0x" ++ String.mk ((addressHexCodes keccak a).map Char.ofNat)

/-- The spec's nibble selection for checksum casing: the high nibble of the
hash byte at `i/2` when `i` is even, its low nibble when `i` is odd. -/
def specNibble (hsh : List Nat) (i : Nat) : Nat :=
  if i % 2 = 0 then hsh.getD (i / 2) 0 / 16 else hsh.getD (i / 2) 0 % 16

/-- Modelled from the spec: case-insensitive hex digit value, as used when
decoding checksum text back to bytes (`encoding/hex` of the Go standard
library, outside these sources). -/
def hexNibbleVal (c : Nat) : Option Nat :=
  if 48 ≤ c ∧ c ≤ 57 then some (c - 48)
  else if 97 ≤ c ∧ c ≤ 102 then some (c - 87)
  else if 65 ≤ c ∧ c ≤ 70 then some (c - 55)
  else none

/-- Modelled from the spec: hex decoding of a list of ASCII codes back to
bytes; two codes per byte, failing on a stray or non-hex character. -/
def hexDecodeCodes : List Nat → Option (List Nat)
  | [] => some []
  | [_] => none
  | c1 :: c2 :: cs =>
    match hexNibbleVal c1, hexNibbleVal c2, hexDecodeCodes cs with
    | some hi, some lo, some rest => some ((16 * hi + lo) :: rest)
    | _, _, _ => none

/-- Modelled from the spec: ASCII lower-casing of a character code
(`strings.ToLower` on ASCII input). -/
def toLowerCode (c : Nat) : Nat := if 65 ≤ c ∧ c ≤ 90 then c + 32 else c

/-- Embeds `Ticket` (`common/types.go:646`), with the `*big.Int` fields `Height`,
`Value` and `weight` modelled as references (cell addresses) into a store
of big-integer cells, so that pointer aliasing is observable. -/
structure TicketRef where
  ID : List Nat
  Owner : List Nat
  Height : Nat
  StartTime : Nat
  ExpireTime : Nat
  Value : Nat
  weight : Nat
deriving DecidableEq

/-- The store of `big.Int` cells addressed by `TicketRef` references. -/
def BigStore := Nat → Int

/-- In-place mutation of the `big.Int` a reference points to
(e.g. `t.Height.SetInt64(v)` through a shared pointer). -/
def storeWrite (σ : BigStore) (r : Nat) (v : Int) : BigStore :=
  fun x => if x = r then v else σ x

/-- Embeds `TicketSlice.DeepCopy` (`common/types.go:735`).  A Go slice is `none`
(nil) or `some` list of elements; the source returns nil when `s == nil ||
len(s) == 0` and otherwise appends each element `t` (the struct value,
with its reference fields unchanged) to a fresh slice. -/
def TicketSlice.DeepCopy (s : Option (List TicketRef)) :
    Option (List TicketRef) :=
  match s with
  | none => none
  | some l =>
    if l.length = 0 then none
    else some (l.foldl (fun r t => r ++ [t]) [])

/-- Embeds `Asset` (`common/types.go:589`).  `Total` holds the value of the
(non-nil) `*big.Int`; `Asset.DeepCopy` dereferences it unconditionally. -/
structure Asset where
  ID : List Nat
  Owner : List Nat
  Name : String
  Symbol : String
  Decimals : Nat
  Total : Int
  CanChange : Bool
  Description : String

/-- Embeds `Asset.DeepCopy` (`common/types.go:600`): the composite literal lists
every field except `Description`, which therefore gets Go's zero value,
the empty string. -/
def Asset.DeepCopy (u : Asset) : Asset :=
  { ID := u.ID
    Owner := u.Owner
    Name := u.Name
    Symbol := u.Symbol
    Decimals := u.Decimals
    Total := u.Total
    CanChange := u.CanChange
    Description := "" }

deriving instance DecidableEq for Except

/-- The lowercase-hex character codes: ASCII digits and letters a-f. -/
def isLowerHexCode (c : Nat) : Prop := (48 ≤ c ∧ c ≤ 57) ∨ (97 ≤ c ∧ c ≤ 102)

instance (c : Nat) : Decidable (isLowerHexCode c) := by
  unfold isLowerHexCode; infer_instance

/-- A concrete one-ticket slice used to exhibit the aliasing of
`TicketSlice.DeepCopy`: its `Height` points to cell 0, `Value` to cell 1,
`weight` to cell 2. -/
def sampleTicket : TicketRef :=
  { ID := List.replicate 32 1, Owner := List.replicate 20 2, Height := 0,
    StartTime := 5, ExpireTime := 6, Value := 1, weight := 2 }

/-- A store holding 0 in every `big.Int` cell. -/
def zeroStore : BigStore := fun _ => 0

/-- The stored swap of the spec's take-swap example:
`Swap{SwapSize:10, MinFromAmount:100, MinToAmount:50}`, with open time
windows ending at time 1. -/
def sampleSwap : Swap :=
  { ID := [], Owner := [], FromAssetID := [], FromStartTime := 0,
    FromEndTime := 1, MinFromAmount := some 100, ToAssetID := [],
    ToStartTime := 0, ToEndTime := 1, MinToAmount := some 50,
    SwapSize := some 10, Targes := [], Time := some 0, Description := "" }

/-- The spec's make-swap example:
`MakeSwapParam{MinFromAmount:100, MinToAmount:100, SwapSize:10}`, with both
end times 1. -/
def sampleMakeSwap : MakeSwapParam :=
  { FromAssetID := [], FromStartTime := 0, FromEndTime := 1,
    MinFromAmount := some 100, ToAssetID := [], ToStartTime := 0,
    ToEndTime := 1, MinToAmount := some 100, SwapSize := some 10,
    Targes := [], Time := some 0, Description := "" }

lemma bigCmp_neg_iff (x y : Int) : bigCmp x y < 0 ↔ x < y := by
  unfold bigCmp; split_ifs with h h' <;> simp_all <;> omega

lemma bigCmp_nonpos_iff (x y : Int) : bigCmp x y ≤ 0 ↔ x ≤ y := by
  unfold bigCmp; split_ifs with h h' <;> simp_all <;> omega

lemma bigCmp_pos_iff (x y : Int) : 0 < bigCmp x y ↔ y < x := by
  unfold bigCmp; split_ifs with h h' <;> simp_all <;> omega

/-- C1 counterexample: the issuance parameter with Name "X", Symbol "X",
Decimals 18 and Total 0 passes `GenAssetParam.Check`, whereas the claim
says a Total of 0 (being `<= 0`) must fail: the code only rejects a
negative Total (`Cmp(Big0) < 0`). -/
theorem genAssetCheck_total_zero_passes :
    GenAssetParam.Check ⟨"X", "X", 18, some 0, false, ""⟩ 0 = .ok () := by
  decide

/-- C1 (amended): `GenAssetParam.Check` fails if and only if `Name` or
`Symbol` is empty, `Total` is unset or negative (not: non-positive),
`Decimals > 18`, `Description` longer than 1024 bytes, `Name` longer than
128 bytes, or `Symbol` longer than 64 bytes; the parameter with Name "X",
Symbol "X", Decimals 18, Total 1 succeeds, and the same parameter with
Total 0 also succeeds. -/
theorem genAssetCheck_fail_iff (p : GenAssetParam) (bn : Int) :
    (GenAssetParam.Check p bn ≠ .ok () ↔
      strLen p.Name = 0 ∨ strLen p.Symbol = 0 ∨ p.Total = none ∨
      (∃ v, p.Total = some v ∧ v < 0) ∨ 18 < p.Decimals ∨
      1024 < strLen p.Description ∨ 128 < strLen p.Name ∨
      64 < strLen p.Symbol) ∧
    GenAssetParam.Check ⟨"X", "X", 18, some 1, false, ""⟩ 0 = .ok () ∧
    GenAssetParam.Check ⟨"X", "X", 18, some 0, false, ""⟩ 0 = .ok () := by
  refine ⟨?_, by decide, by decide⟩
  rcases hT : p.Total with _ | v <;>
    simp only [GenAssetParam.Check, hT, Option.getD_none, Option.getD_some] <;>
    split_ifs with h1 h2 h3 h4 h5 <;>
    simp_all [bigCmp_neg_iff] <;> omega

/-- C8: the transfer, time-lock and value-change validations all require a
set, strictly positive `Value`; `SendAssetParam.Check` additionally rejects
the all-zero receiver address; `TimeLockParam.Check` additionally requires
`StartTime <= EndTime` and `EndTime >= blockTimestamp`; and
`AssetValueChangeExParam.Check` additionally rejects a `TransacData` longer
than 256 bytes. -/
theorem value_checks_ok_iff (ps : SendAssetParam) (pt : TimeLockParam)
    (pv : AssetValueChangeParam) (pe : AssetValueChangeExParam)
    (bn : Int) (ts : Nat) :
    (SendAssetParam.Check ps bn = .ok () ↔
      (∃ v, ps.Value = some v ∧ 0 < v) ∧ ps.To ≠ zeroAddress) ∧
    (TimeLockParam.Check pt bn ts = .ok () ↔
      (∃ v, pt.Value = some v ∧ 0 < v) ∧ pt.StartTime ≤ pt.EndTime ∧
        ts ≤ pt.EndTime) ∧
    (AssetValueChangeParam.Check pv bn = .ok () ↔
      ∃ v, pv.Value = some v ∧ 0 < v) ∧
    (AssetValueChangeExParam.Check pe bn = .ok () ↔
      (∃ v, pe.Value = some v ∧ 0 < v) ∧ strLen pe.TransacData ≤ 256) := by
  refine ⟨?_, ?_, ?_, ?_⟩
  · rcases hV : ps.Value with _ | v <;>
      simp only [SendAssetParam.Check, hV, Option.getD_none, Option.getD_some] <;>
      split_ifs with h1 h2 <;>
      simp_all [bigCmp_nonpos_iff] <;> omega
  · rcases hV : pt.Value with _ | v <;>
      simp only [TimeLockParam.Check, hV, Option.getD_none, Option.getD_some] <;>
      split_ifs with h1 h2 h3 <;>
      simp_all [bigCmp_nonpos_iff] <;> omega
  · rcases hV : pv.Value with _ | v <;>
      simp only [AssetValueChangeParam.Check, hV, Option.getD_none,
        Option.getD_some] <;>
      split_ifs with h1 <;>
      simp_all [bigCmp_nonpos_iff] <;> omega
  · rcases hV : pe.Value with _ | v <;>
      simp only [AssetValueChangeExParam.Check, hV, Option.getD_none,
        Option.getD_some] <;>
      split_ifs with h1 h2 <;>
      simp_all [bigCmp_nonpos_iff] <;> omega

set_option maxHeartbeats 2000000

/-- C5: `TakeSwapParam.Check` succeeds if and only if `Size` and the
swap's `SwapSize`, `MinFromAmount` and `MinToAmount` are set with
`0 < Size <= SwapSize`, `MinFromAmount > 0`, `MinToAmount > 0`, both
products `MinFromAmount * Size` and `MinToAmount * Size` positive, and
both `FromEndTime` and `ToEndTime` strictly after the block timestamp;
for the stored swap with SwapSize 10, MinFromAmount 100, MinToAmount 50,
a take of Size 10 succeeds while Size 11 and Size 0 fail. -/
theorem takeSwapCheck_ok_iff (p : TakeSwapParam) (bn : Int) (sw : Swap)
    (ts : Nat) :
    (TakeSwapParam.Check p bn sw ts = .ok () ↔
      ∃ sz zz mf mt, p.Size = some sz ∧ sw.SwapSize = some zz ∧
        sw.MinFromAmount = some mf ∧ sw.MinToAmount = some mt ∧
        0 < sz ∧ sz ≤ zz ∧ 0 < mf ∧ 0 < mt ∧ 0 < mf * sz ∧ 0 < mt * sz ∧
        ts < sw.FromEndTime ∧ ts < sw.ToEndTime) ∧
    TakeSwapParam.Check ⟨[], some 10⟩ 0 sampleSwap 0 = .ok () ∧
    TakeSwapParam.Check ⟨[], some 11⟩ 0 sampleSwap 0 ≠ .ok () ∧
    TakeSwapParam.Check ⟨[], some 0⟩ 0 sampleSwap 0 ≠ .ok () := by
  refine ⟨?_, by decide, by decide, by decide⟩
  rcases hS : p.Size with _ | sz <;>
  rcases hZ : sw.SwapSize with _ | zz <;>
  rcases hF : sw.MinFromAmount with _ | mf <;>
  rcases hT : sw.MinToAmount with _ | mt <;>
    simp only [TakeSwapParam.Check, hS, hZ, hF, hT, Option.getD_none,
      Option.getD_some] <;>
    split_ifs with h1 h2 h3 h4 h5 h6 h7 <;>
    simp_all [bigCmp_nonpos_iff, bigCmp_pos_iff] <;>
    first
    | omega
    | nlinarith

/-- C6: `MakeSwapParam.Check` fails if and only if one of `MinFromAmount`,
`MinToAmount`, `SwapSize` is unset or non-positive, or the description is
longer than 1024 bytes, or `MinFromAmount * SwapSize <= 0`, or a time
window is inverted, or one of the end times is at or before the block
timestamp; the spec's example offer succeeds at timestamp 0 and fails when
either end time is 0. -/
theorem makeSwapCheck_fail_iff (p : MakeSwapParam) (bn : Int) (ts : Nat) :
    (MakeSwapParam.Check p bn ts ≠ .ok () ↔
      p.MinFromAmount = none ∨ (∃ v, p.MinFromAmount = some v ∧ v ≤ 0) ∨
      p.MinToAmount = none ∨ (∃ v, p.MinToAmount = some v ∧ v ≤ 0) ∨
      p.SwapSize = none ∨ (∃ v, p.SwapSize = some v ∧ v ≤ 0) ∨
      1024 < strLen p.Description ∨
      (∃ x y, p.MinFromAmount = some x ∧ p.SwapSize = some y ∧ x * y ≤ 0) ∨
      p.FromEndTime < p.FromStartTime ∨ p.ToEndTime < p.ToStartTime ∨
      p.FromEndTime ≤ ts ∨ p.ToEndTime ≤ ts) ∧
    MakeSwapParam.Check sampleMakeSwap 0 0 = .ok () ∧
    MakeSwapParam.Check { sampleMakeSwap with FromEndTime := 0 } 0 0 ≠ .ok () ∧
    MakeSwapParam.Check { sampleMakeSwap with ToEndTime := 0 } 0 0 ≠ .ok () := by
  refine ⟨?_, by decide, by decide, by decide⟩
  rcases hF : p.MinFromAmount with _ | mf <;>
  rcases hT : p.MinToAmount with _ | mt <;>
  rcases hZ : p.SwapSize with _ | zz <;>
    simp only [MakeSwapParam.Check, hF, hT, hZ, Option.getD_none,
      Option.getD_some] <;>
    split_ifs with h1 h2 h3 h4 h5 h6 h7 <;>
    simp_all [bigCmp_nonpos_iff] <;>
    first
    | omega
    | nlinarith

set_option maxHeartbeats 400000

lemma and15_eq (n : Nat) : n &&& 15 = n % 16 := by
  have := Nat.and_pow_two_sub_one_eq_mod n 4; simpa using this

lemma shiftRight4_eq (n : Nat) : n >>> 4 = n / 16 := by
  have := Nat.shiftRight_eq_div_pow n 4; simpa using this

/-- C2: `BuyTicketParam.Check` fails exactly when `End <= Start`, or
`End < Start + 30 days`, or (with a nonzero block timestamp)
`Start > blockTimestamp + 3 hours` or
`End < blockTimestamp + 7 days + adjustSeconds` — all sums being `uint64`
sums, i.e. reduced modulo `2 ^ 64`; at the exact boundary
`End = Start + 30*86400` the check succeeds when the block timestamp is 0,
and one second short of it fails. -/
theorem buyTicketCheck_fail_iff (p : BuyTicketParam) (bn : Int) (ts : Nat)
    (adjust : Int) :
    (BuyTicketParam.Check p bn ts adjust ≠ .ok () ↔
      (p.End ≤ p.Start ∨ p.End < (p.Start + 30 * 86400) % 2 ^ 64 ∨
        (ts ≠ 0 ∧ ((ts + 3 * 3600) % 2 ^ 64 < p.Start ∨
          p.End < (((ts : Int) + 7 * 86400 + adjust) % 2 ^ 64).toNat)))) ∧
    (∀ S : Nat, S + 30 * 86400 < 2 ^ 64 →
      BuyTicketParam.Check ⟨S, S + 30 * 86400⟩ bn 0 adjust = .ok ()) ∧
    (∀ S : Nat, S + 30 * 86400 < 2 ^ 64 →
      BuyTicketParam.Check ⟨S, S + 30 * 86400 - 1⟩ bn 0 adjust ≠ .ok ()) := by
  refine ⟨?_, ?_, ?_⟩
  · simp only [BuyTicketParam.Check, addU64, toU64]
    split_ifs with h1 h2 h3 h4 <;> simp_all <;> omega
  · intro S hS
    simp only [BuyTicketParam.Check, addU64]
    split_ifs with h1 h2 <;> simp_all <;> omega
  · intro S hS
    simp only [BuyTicketParam.Check, addU64]
    split_ifs with h1 h2 <;> simp_all <;> omega

/-- Witness for C2: at Start 5, the boundary End succeeds and one second
short fails. -/
theorem buyTicketCheck_fail_iff_witness :
    BuyTicketParam.Check ⟨5, 5 + 30 * 86400⟩ 0 0 0 = .ok () ∧
    BuyTicketParam.Check ⟨5, 5 + 30 * 86400 - 1⟩ 0 0 0 ≠ .ok () :=
  ⟨(buyTicketCheck_fail_iff ⟨5, 5 + 30 * 86400⟩ 0 0 0).2.1 5 (by decide),
   (buyTicketCheck_fail_iff ⟨5, 5 + 30 * 86400⟩ 0 0 0).2.2 5 (by decide)⟩

lemma hashSetBytes_of_length (b : List Nat) (h : b.length = 32) :
    Hash.SetBytes b = b := by
  unfold Hash.SetBytes
  rw [if_neg (by omega)]
  simp [h]

lemma addressSetBytes_of_length (b : List Nat) (h : b.length = 20) :
    Address.SetBytes b = b := by
  unfold Address.SetBytes
  rw [if_neg (by omega)]
  simp [h]

lemma hashSetBytes_length (b : List Nat) : (Hash.SetBytes b).length = 32 := by
  unfold Hash.SetBytes
  split_ifs with h <;> simp <;> omega

lemma addressSetBytes_length (b : List Nat) :
    (Address.SetBytes b).length = 20 := by
  unfold Address.SetBytes
  split_ifs with h <;> simp <;> omega

/-- C4: `SetBytes` right-aligns its input into the fixed-size buffer: the
result always has exactly the buffer's length (32 for `Hash`, 20 for
`Address`), an over-long input is cropped from the left (a 40-byte input
into an `Address` keeps its last 20 bytes), a short input is left-padded
with zero bytes (a 10-byte input gains the missing leading zeros), and the
construction is idempotent: re-reading the produced bytes reproduces the
same value. -/
theorem setBytes_spec (b : List Nat) :
    (Hash.SetBytes b).length = 32 ∧ (Address.SetBytes b).length = 20 ∧
    (32 < b.length → Hash.SetBytes b = b.drop (b.length - 32)) ∧
    (b.length < 32 → Hash.SetBytes b = List.replicate (32 - b.length) 0 ++ b) ∧
    (20 < b.length → Address.SetBytes b = b.drop (b.length - 20)) ∧
    (b.length < 20 → Address.SetBytes b = List.replicate (20 - b.length) 0 ++ b) ∧
    Hash.SetBytes (Hash.SetBytes b) = Hash.SetBytes b ∧
    Address.SetBytes (Address.SetBytes b) = Address.SetBytes b := by
  refine ⟨hashSetBytes_length b, addressSetBytes_length b, ?_, ?_, ?_, ?_,
    hashSetBytes_of_length _ (hashSetBytes_length b),
    addressSetBytes_of_length _ (addressSetBytes_length b)⟩
  · intro h
    unfold Hash.SetBytes
    rw [if_pos h]
    simp [h.le]
    omega
  · intro h
    unfold Hash.SetBytes
    rw [if_neg (by omega)]
  · intro h
    unfold Address.SetBytes
    rw [if_pos h]
    simp [h.le]
    omega
  · intro h
    unfold Address.SetBytes
    rw [if_neg (by omega)]

/-- Witness for C4: a 40-byte input into an `Address` keeps the last 20
bytes; a 10-byte input is left-padded with 10 zero bytes. -/
theorem setBytes_spec_witness :
    Address.SetBytes (List.range 40) = (List.range 40).drop 20 ∧
    Address.SetBytes (List.range 10) =
      List.replicate 10 0 ++ List.range 10 ∧
    Hash.SetBytes (List.range 10) =
      List.replicate 22 0 ++ List.range 10 :=
  ⟨(setBytes_spec (List.range 40)).2.2.2.2.1 (by decide),
   (setBytes_spec (List.range 10)).2.2.2.2.2.1 (by decide),
   (setBytes_spec (List.range 10)).2.2.2.1 (by decide)⟩

/-- C7 evaluated at a failing input: the slice copy returns the very same
ticket record, so its `Height` field still references cell 0 of the store;
writing 9 through the copy's `Height` reference is observed when reading
the original ticket's `Height`, which previously read 0. -/
theorem ticketSliceDeepCopy_aliases_height :
    TicketSlice.DeepCopy (some [sampleTicket]) = some [sampleTicket] ∧
    zeroStore sampleTicket.Height = 0 ∧
    storeWrite zeroStore sampleTicket.Height 9 sampleTicket.Height = 9 := by
  exact ⟨rfl, rfl, rfl⟩

lemma ticketFoldlAppend (l : List TicketRef) :
    ∀ init : List TicketRef, l.foldl (fun r t => r ++ [t]) init = init ++ l := by
  induction l with
  | nil => intro init; simp
  | cons t ticks ih => intro init; simp [List.foldl_cons, ih]

/-- C10: `TicketSlice.DeepCopy` sends both the nil slice and the empty
slice to nil, erasing the nil/empty distinction; a non-empty slice is
copied with the same elements in the same order. -/
theorem ticketSliceDeepCopy_nil_empty (l : List TicketRef) :
    TicketSlice.DeepCopy none = none ∧
    TicketSlice.DeepCopy (some []) = none ∧
    (l ≠ [] → TicketSlice.DeepCopy (some l) = some l) := by
  refine ⟨rfl, rfl, fun h => ?_⟩
  simp only [TicketSlice.DeepCopy, List.length_eq_zero, if_neg h,
    ticketFoldlAppend, List.nil_append]

/-- Witness for C10: the one-ticket slice is copied to itself. -/
theorem ticketSliceDeepCopy_nil_empty_witness :
    TicketSlice.DeepCopy none = none ∧
    TicketSlice.DeepCopy (some [sampleTicket]) = some [sampleTicket] :=
  ⟨(ticketSliceDeepCopy_nil_empty []).1,
   (ticketSliceDeepCopy_nil_empty [sampleTicket]).2.2 (by decide)⟩

/-- C9: `Asset.DeepCopy` preserves `ID`, `Owner`, `Name`, `Symbol`,
`Decimals`, `Total` and `CanChange`, but never carries the `Description`
over: for an asset with a non-empty description the copy's description is
empty. -/
theorem assetDeepCopy_drops_description (a : Asset)
    (h : a.Description ≠ "") :
    (Asset.DeepCopy a).Description = "" ∧
    (Asset.DeepCopy a).ID = a.ID ∧
    (Asset.DeepCopy a).Owner = a.Owner ∧
    (Asset.DeepCopy a).Name = a.Name ∧
    (Asset.DeepCopy a).Symbol = a.Symbol ∧
    (Asset.DeepCopy a).Decimals = a.Decimals ∧
    (Asset.DeepCopy a).Total = a.Total ∧
    (Asset.DeepCopy a).CanChange = a.CanChange := by
  simp [Asset.DeepCopy]

/-- Witness for C9: a concrete asset with description "x" loses it in the
copy. -/
theorem assetDeepCopy_drops_description_witness :
    (Asset.DeepCopy ⟨[], [], "T", "T", 2, 7, true, "x"⟩).Description = "" ∧
    (Asset.DeepCopy ⟨[], [], "T", "T", 2, 7, true, "x"⟩).Total = 7 :=
  ⟨(assetDeepCopy_drops_description ⟨[], [], "T", "T", 2, 7, true, "x"⟩
      (by decide)).1,
   (assetDeepCopy_drops_description ⟨[], [], "T", "T", 2, 7, true, "x"⟩
      (by decide)).2.2.2.2.2.2.1⟩

lemma hexDigitCode_valid (n : Nat) (h : n < 16) :
    isLowerHexCode (hexDigitCode n) := by
  unfold isLowerHexCode hexDigitCode
  split_ifs <;> omega

lemma encodeToStringCodes_length (a : List Nat) :
    (encodeToStringCodes a).length = 2 * a.length := by
  induction a with
  | nil => rfl
  | cons b bs ih => simp [encodeToStringCodes, ih]; ring

lemma encodeToStringCodes_valid :
    ∀ (a : List Nat), (∀ b ∈ a, b < 256) →
      ∀ c ∈ encodeToStringCodes a, isLowerHexCode c := by
  intro a
  induction a with
  | nil => intro _ c hc; simp [encodeToStringCodes] at hc
  | cons b bs ih =>
    intro ha c hc
    have hb : b < 256 := ha b (by simp)
    simp only [encodeToStringCodes, List.mem_cons] at hc
    rcases hc with rfl | rfl | h
    · exact hexDigitCode_valid _ (by rw [shiftRight4_eq]; omega)
    · exact hexDigitCode_valid _ (by rw [and15_eq]; omega)
    · exact ih (fun x hx => ha x (by simp [hx])) c h

lemma checksumLoop_length (hsh : List Nat) :
    ∀ (l : List Nat) (i : Nat), (checksumLoop hsh i l).length = l.length := by
  intro l
  induction l with
  | nil => intro i; rfl
  | cons c cs ih => intro i; simp [checksumLoop, ih]

lemma checksumLoop_getD (hsh : List Nat) :
    ∀ (l : List Nat) (i j : Nat), j < l.length →
      (checksumLoop hsh i l).getD j 0 =
        checksumByte hsh (i + j) (l.getD j 0) := by
  intro l
  induction l with
  | nil => intro i j h; simp at h
  | cons c cs ih =>
    intro i j h
    cases j with
    | zero => simp [checksumLoop]
    | succ j =>
      have := ih (i + 1) j (by simpa using h)
      simp only [checksumLoop, List.getD_cons_succ, this]
      congr 1
      omega

lemma checksumByte_eq_spec (hsh : List Nat) (i c : Nat)
    (hc : isLowerHexCode c) :
    checksumByte hsh i c =
      if 97 ≤ c ∧ c ≤ 102 ∧ 7 < specNibble hsh i then c - 32 else c := by
  unfold checksumByte specNibble
  simp only [shiftRight4_eq, and15_eq]
  rcases hc with ⟨h1, h2⟩ | ⟨h1, h2⟩ <;> split_ifs <;> omega

lemma hexNibbleVal_checksumByte (hsh : List Nat) (i n : Nat) (hn : n < 16) :
    hexNibbleVal (checksumByte hsh i (hexDigitCode n)) = some n := by
  rw [checksumByte_eq_spec hsh i _ (hexDigitCode_valid n hn)]
  unfold hexNibbleVal hexDigitCode
  split_ifs <;> simp_all <;> omega

lemma toLowerCode_checksumByte (hsh : List Nat) (i c : Nat)
    (hc : isLowerHexCode c) : toLowerCode (checksumByte hsh i c) = c := by
  rw [checksumByte_eq_spec hsh i c hc]
  unfold toLowerCode
  rcases hc with ⟨h1, h2⟩ | ⟨h1, h2⟩ <;> split_ifs <;> omega

lemma hexDecode_checksumLoop (hsh : List Nat) :
    ∀ (a : List Nat), (∀ b ∈ a, b < 256) → ∀ i,
      hexDecodeCodes (checksumLoop hsh i (encodeToStringCodes a)) = some a := by
  intro a
  induction a with
  | nil => intro _ i; rfl
  | cons b bs ih =>
    intro ha i
    have hb : b < 256 := ha b (by simp)
    have h1 : b >>> 4 < 16 := by rw [shiftRight4_eq]; omega
    have h2 : b &&& 15 < 16 := by rw [and15_eq]; omega
    show hexDecodeCodes
        (checksumByte hsh i (hexDigitCode (b >>> 4)) ::
          checksumByte hsh (i + 1) (hexDigitCode (b &&& 15)) ::
          checksumLoop hsh (i + 2) (encodeToStringCodes bs)) = some (b :: bs)
    rw [hexDecodeCodes, hexNibbleVal_checksumByte hsh i _ h1,
      hexNibbleVal_checksumByte hsh (i + 1) _ h2,
      ih (fun x hx => ha x (by simp [hx])) (i + 2)]
    have hbb : 16 * (b >>> 4) + (b &&& 15) = b := by
      rw [shiftRight4_eq, and15_eq]; omega
    simp [hbb]

lemma mapToLower_checksumLoop (hsh : List Nat) :
    ∀ (l : List Nat), (∀ c ∈ l, isLowerHexCode c) → ∀ i,
      (checksumLoop hsh i l).map toLowerCode = l := by
  intro l
  induction l with
  | nil => intro _ i; rfl
  | cons c cs ih =>
    intro hl i
    simp only [checksumLoop, List.map_cons,
      toLowerCode_checksumByte hsh i c (hl c (by simp)),
      ih (fun x hx => hl x (by simp [hx])) (i + 1)]

lemma getD_mem_of_lt (l : List Nat) (i : Nat) (h : i < l.length) :
    l.getD i 0 ∈ l := by
  rw [List.getD_eq_getElem l 0 h]
  exact List.getElem_mem h

/-- C3: for a 20-byte address, `Address.Hex` is `0x` followed by the 40
characters of the lowercase hex encoding in which character `i` is
uppercased (decreased by 32) exactly when it is an alphabetic hex digit
(codes 97-102, i.e. `a`-`f`) and the nibble of the hash of the lowercase
string at position `i` — the high nibble of hash byte `i/2` for even `i`,
the low nibble for odd `i` — exceeds 7; digits are never altered.
Consequently hex-decoding the checksum text yields the address back and
lower-casing it yields the plain unchecksummed hex.  The property holds
for every choice of the external 32-byte hash function. -/
theorem addressHex_checksum_spec (keccak : List Nat → List Nat)
    (a : List Nat) (hlen : a.length = 20) (hbytes : ∀ b ∈ a, b < 256) :
    (addressHexCodes keccak a).length = 40 ∧
    (∀ i, i < 40 →
      (addressHexCodes keccak a).getD i 0 =
        if 97 ≤ (encodeToStringCodes a).getD i 0 ∧
            (encodeToStringCodes a).getD i 0 ≤ 102 ∧
            7 < specNibble (keccak (encodeToStringCodes a)) i
        then (encodeToStringCodes a).getD i 0 - 32
        else (encodeToStringCodes a).getD i 0) ∧
    hexDecodeCodes (addressHexCodes keccak a) = some a ∧
    (addressHexCodes keccak a).map toLowerCode = encodeToStringCodes a ∧
    addressHex keccak a =
      "0x" ++ String.mk ((addressHexCodes keccak a).map Char.ofNat) := by
  have hel : (encodeToStringCodes a).length = 40 := by
    rw [encodeToStringCodes_length, hlen]
  refine ⟨?_, ?_, ?_, ?_, rfl⟩
  · unfold addressHexCodes
    rw [checksumLoop_length, hel]
  · intro i hi
    unfold addressHexCodes
    rw [checksumLoop_getD (keccak (encodeToStringCodes a))
      (encodeToStringCodes a) 0 i (by omega), Nat.zero_add]
    exact checksumByte_eq_spec _ i _
      (encodeToStringCodes_valid a hbytes _ (getD_mem_of_lt _ i (by omega)))
  · exact hexDecode_checksumLoop _ a hbytes 0
  · exact mapToLower_checksumLoop _ _ (encodeToStringCodes_valid a hbytes) 0

/-- Witness for C3, at the all-0xAB address and the constant all-0x80 hash:
decoding the checksum text yields the address back, and lower-casing the
checksum text yields the lowercase hex. -/
theorem addressHex_checksum_spec_witness :
    hexDecodeCodes (addressHexCodes (fun _ => List.replicate 32 128)
        (List.replicate 20 171)) = some (List.replicate 20 171) ∧
    (addressHexCodes (fun _ => List.replicate 32 128)
        (List.replicate 20 171)).map toLowerCode =
      encodeToStringCodes (List.replicate 20 171) :=
  ⟨(addressHex_checksum_spec (fun _ => List.replicate 32 128)
      (List.replicate 20 171) (by decide) (by decide)).2.2.1,
   (addressHex_checksum_spec (fun _ => List.replicate 32 128)
      (List.replicate 20 171) (by decide) (by decide)).2.2.2.1⟩
